import Mathlib

/-!
Shallow embedding of the decoder library in src/dist/src/index.js.

JavaScript values are modelled by the inductive type `JSValue` (numbers as
integers, objects as association lists in insertion order; prototype-inherited
properties are not modelled). A thrown JS `Error` is modelled by the
`JSError.error` constructor carrying its message string, and a native
`TypeError` raised by the runtime (for example when the `in` operator or a
property read is applied to `null`) by `JSError.typeError`; its message text is
an approximation of the runtime message, while the constructor distinguishes
the two kinds of failure exactly as the JS classes do. Every decoder is a
function from an input value and a location string to `Except JSError`,
mirroring the `fn(obj, at)` functions wrapped by the `Decoder` class.
-/

namespace TSJD

/-- Model of a JavaScript runtime value as produced by JSON.parse, extended
with `undefined` since `decodeAny` accepts arbitrary values and the library
itself manufactures `undefined` by out-of-range indexing. -/
inductive JSValue where
  | undefined
  | null
  | bool (b : Bool)
  | num (n : Int)
  | str (s : String)
  | arr (elems : List JSValue)
  | obj (fields : List (String × JSValue))

/-- A property key: a string key or an integer index, as used by
`pushLocation`, `tuple` and `at`. -/
inductive JSKey where
  | str (s : String)
  | num (n : Nat)
deriving DecidableEq

/-- A thrown JS exception: `error` is a `new Error(message)` thrown by the
library itself, `typeError` is a native `TypeError` raised by the runtime. -/
inductive JSError where
  | error (message : String)
  | typeError (message : String)
deriving DecidableEq

/-- The result of `typeof v` in JS. Note `typeof null` is `"object"`, and
`typeof` of an array is also `"object"`. -/
def typeofTag : JSValue → String
  | .undefined => "undefined"
  | .null => "object"
  | .bool _ => "boolean"
  | .num _ => "number"
  | .str _ => "string"
  | .arr _ => "object"
  | .obj _ => "object"

/-- Source `prettyPrint` (index.js line 60): `null` prints as `"null"`, an
array as `"array"`, anything else as its `typeof` tag. -/
def prettyPrint : JSValue → String
  | .null => "null"
  | .arr _ => "array"
  | v => typeofTag v

/-- Source `decoderError` (index.js line 7): builds the thrown `Error`.
When the `got` value is `undefined` (also when no `got` was supplied at the
call site) the `, got ...` clause is omitted from the message. -/
def decoderError (loc expected : String) (got : JSValue) : JSError :=
  match got with
  | .undefined => .error ("error at " ++ loc ++ ": expected " ++ expected)
  | g => .error ("error at " ++ loc ++ ": expected " ++ expected ++ ", got " ++ prettyPrint g)

/-- First character class of the identifier regexes: `[$_a-zA-Z]`. -/
def isIdentStart (c : Char) : Bool :=
  c = '$' || c = '_' || ('a' ≤ c && c ≤ 'z') || ('A' ≤ c && c ≤ 'Z')

/-- Continuation character class of the identifier regexes: `[$_a-zA-Z0-9]`. -/
def isIdentChar (c : Char) : Bool :=
  isIdentStart c || ('0' ≤ c && c ≤ '9')

/-- The regex `^[$_a-zA-Z][$_a-zA-Z0-9]+$` used by `pushLocation`
(index.js line 82). The `+` requires at least one continuation character,
so a match needs at least two characters in total. -/
def matchIdentPlus (s : String) : Bool :=
  match s.data with
  | [] => false
  | c :: cs => isIdentStart c && !cs.isEmpty && cs.all isIdentChar

/-- The regex `^[$_a-zA-Z][$_a-zA-Z0-9]*$` used by `escapeKey`
(index.js line 70). The `*` also accepts single-character identifiers. -/
def matchIdentStar (s : String) : Bool :=
  match s.data with
  | [] => false
  | c :: cs => isIdentStart c && cs.all isIdentChar

/-- One hex digit, lowercase, as emitted by JSON.stringify for control
characters. -/
def hexDigit (n : Nat) : Char :=
  if n < 10 then Char.ofNat (48 + n) else Char.ofNat (87 + n)

/-- JSON escaping of one character, per JSON.stringify on strings. -/
def jsonEscapeChar (c : Char) : String :=
  if c = '"' then "\\\""
  else if c = '\\' then "\\\\"
  else if c = Char.ofNat 8 then "\\b"
  else if c = Char.ofNat 9 then "\\t"
  else if c = Char.ofNat 10 then "\\n"
  else if c = Char.ofNat 12 then "\\f"
  else if c = Char.ofNat 13 then "\\r"
  else if c.toNat < 32 then
    "\\u00" ++ String.mk [hexDigit (c.toNat / 16), hexDigit (c.toNat % 16)]
  else String.mk [c]

/-- `JSON.stringify` applied to a string: the double-quoted, escaped form.
Code points are escaped individually (lone-surrogate handling is not
modelled; JSON keys in this development are plain text). -/
def jsonStringify (s : String) : String :=
  "\"" ++ String.join (s.data.map jsonEscapeChar) ++ "\""

/-- Source `escapeKey` (index.js line 69): a key matching the star-regex is
kept verbatim, any other key is JSON-quoted. -/
def escapeKey (key : String) : String :=
  if matchIdentStar key then key else jsonStringify key

/-- The first step of `pushLocation` (index.js line 76): the designated root
location renders as an empty prefix. -/
def locBase (loc : String) : String :=
  if loc = "root" then "" else loc

/-- Source `pushLocation` (index.js line 75): a numeric key renders as
`[i]`; a string key matching the plus-regex renders as `.key`; any other
string key renders JSON-quoted inside square brackets. -/
def pushLocation (loc : String) (key : JSKey) : String :=
  match key with
  | .num k => locBase loc ++ "[" ++ toString k ++ "]"
  | .str k =>
    if matchIdentPlus k then locBase loc ++ "." ++ k
    else locBase loc ++ "[" ++ jsonStringify k ++ "]"

/-- A string that denotes a canonical array index (the decimal numeral of
some natural number), and that number. JS coerces such property names to
indices; `"01"` is not canonical and is an ordinary key. -/
def parseIndex (s : String) : Option Nat :=
  match s.toNat? with
  | some n => if toString n = s then some n else none
  | none => none

/-- The property name a key coerces to: numbers become their decimal form. -/
def keyName : JSKey → String
  | .str s => s
  | .num n => toString n

/-- First-match lookup in an object's fields; absent keys read as
`undefined`. -/
def lookupField : List (String × JSValue) → String → JSValue
  | [], _ => .undefined
  | (k, v) :: rest, key => if k = key then v else lookupField rest key

/-- Presence test for an object field, mirroring the own-property part of
the `in` operator. -/
def hasField : List (String × JSValue) → String → Bool
  | [], _ => false
  | (k, _) :: rest, key => k = key || hasField rest key

/-- Character read `s[i]` on a string: a one-character string, or
`undefined` past the end. -/
def strCharAt (s : String) (i : Nat) : JSValue :=
  match s.data.drop i with
  | c :: _ => .str (String.mk [c])
  | [] => .undefined

/-- The JS property read `v[key]`. Reading a property of `null` or
`undefined` raises a native TypeError; reading a missing property of any
other value yields `undefined`. Strings and arrays expose `length` and
their positions; prototype-inherited properties are not modelled. -/
def jsGet (v : JSValue) (key : JSKey) : Except JSError JSValue :=
  match v with
  | .undefined => .error (.typeError ("Cannot read properties of undefined reading " ++ keyName key))
  | .null => .error (.typeError ("Cannot read properties of null reading " ++ keyName key))
  | .bool _ => .ok .undefined
  | .num _ => .ok .undefined
  | .str s =>
    match key with
    | .num i => .ok (strCharAt s i)
    | .str k =>
      if k = "length" then .ok (.num (s.length : Int))
      else
        match parseIndex k with
        | some i => .ok (strCharAt s i)
        | none => .ok .undefined
  | .arr xs =>
    match key with
    | .num i => .ok (xs.getD i .undefined)
    | .str k =>
      if k = "length" then .ok (.num (xs.length : Int))
      else
        match parseIndex k with
        | some i => .ok (xs.getD i .undefined)
        | none => .ok .undefined
  | .obj fields => .ok (lookupField fields (keyName key))

/-- The JS `key in v` operator. On `null`, `undefined` and primitives it
raises a native TypeError; on arrays it tests indices and `length`; on
objects it tests own fields (prototype-inherited properties are not
modelled). -/
def jsHasProp (v : JSValue) (key : String) : Except JSError Bool :=
  match v with
  | .undefined => .error (.typeError ("Cannot use in operator to search for " ++ key ++ " in undefined"))
  | .null => .error (.typeError ("Cannot use in operator to search for " ++ key ++ " in null"))
  | .bool _ => .error (.typeError ("Cannot use in operator to search for " ++ key ++ " in primitive"))
  | .num _ => .error (.typeError ("Cannot use in operator to search for " ++ key ++ " in primitive"))
  | .str _ => .error (.typeError ("Cannot use in operator to search for " ++ key ++ " in primitive"))
  | .arr xs =>
    .ok (key = "length" ||
      match parseIndex key with
      | some i => decide (i < xs.length)
      | none => false)
  | .obj fields => .ok (hasField fields key)

/-- The `Decoder` class: a wrapper around `fn(obj, at)`. The package-private
`decode(decoder, object, at)` of the source is exactly `d.fn object at`. -/
structure Decoder (α : Type) where
  fn : JSValue → String → Except JSError α

/-- `Decoder.prototype.decodeAny` (index.js line 43): run `fn` at the root
location. -/
def Decoder.decodeAny (d : Decoder α) (v : JSValue) : Except JSError α :=
  d.fn v "root"

/-- Source `string()` (index.js line 90): succeed with the input itself when
its `typeof` is `"string"`, otherwise throw via `decoderError`. -/
def string : Decoder JSValue :=
  ⟨fun obj loc =>
    match obj with
    | .str s => .ok (.str s)
    | _ => .error (decoderError loc "string" obj)⟩

/-- Source `number()` (index.js line 106). -/
def number : Decoder JSValue :=
  ⟨fun obj loc =>
    match obj with
    | .num n => .ok (.num n)
    | _ => .error (decoderError loc "number" obj)⟩

/-- Source `boolean()` (index.js line 122). -/
def boolean : Decoder JSValue :=
  ⟨fun obj loc =>
    match obj with
    | .bool b => .ok (.bool b)
    | _ => .error (decoderError loc "boolean" obj)⟩

/-- Source `any()` (index.js line 161): always succeed with the input. -/
def any : Decoder JSValue :=
  ⟨fun obj _ => .ok obj⟩

/-- Source `opaqueObject()` (index.js line 173): succeed with the input
unchanged whenever `typeof obj` is `"object"`, otherwise throw. -/
def opaqueObject : Decoder JSValue :=
  ⟨fun obj loc =>
    if typeofTag obj = "object" then .ok obj
    else .error (decoderError loc "object" obj)⟩

/-- Source `fail(message)` (index.js line 381): always throw a plain error
carrying the given message at the current location. -/
def fail (message : String) : Decoder α :=
  ⟨fun _ loc => .error (.error ("error at " ++ loc ++ ": " ++ message))⟩

/-- The `decoders.forEach` loop of `object` (index.js line 250): walk the
declared entries left to right, carrying the decoded values and the missing
keys collected so far. A present key is decoded immediately (a decode
failure, or a TypeError from the `in` test, aborts the whole loop); an
absent key is appended to the missing list. -/
def objectGo (obj : JSValue) (loc : String) :
    List (String × Decoder α) → List α → List String →
    Except JSError (List α × List String)
  | [], values, missing => .ok (values, missing)
  | (key, d) :: rest, values, missing =>
    match jsHasProp obj key with
    | .error e => .error e
    | .ok true =>
      match jsGet obj (.str key) with
      | .error e => .error e
      | .ok v =>
        match d.fn v (pushLocation loc (.str key)) with
        | .error e => .error e
        | .ok x => objectGo obj loc rest (values ++ [x]) missing
    | .ok false => objectGo obj loc rest values (missing ++ [key])

/-- Lexicographic comparison of character lists by code point, the order
used by the default `Array.prototype.sort` comparison on strings. -/
def lexLt : List Char → List Char → Bool
  | [], [] => false
  | [], _ :: _ => true
  | _ :: _, [] => false
  | a :: as, b :: bs =>
    if a.toNat < b.toNat then true
    else if b.toNat < a.toNat then false
    else lexLt as bs

/-- String comparison used when sorting the missing keys. -/
def strLt (a b : String) : Bool :=
  lexLt a.data b.data

/-- Insertion of a key into a sorted list, ascending by the string order,
modelling the default `Array.prototype.sort` comparison. -/
def insertSorted (x : String) : List String → List String
  | [] => [x]
  | y :: ys => if strLt y x then y :: insertSorted x ys else x :: y :: ys

/-- `missingKeys.sort()` (index.js line 261): lexicographically ascending. -/
def sortKeys (l : List String) : List String :=
  l.foldr insertSorted []

/-- `Array.prototype.join` with separator `", "`. -/
def joinComma : List String → String
  | [] => ""
  | [x] => x
  | x :: y :: rest => x ++ ", " ++ joinComma (y :: rest)

/-- Source `object(entry.., cons)` (index.js line 233): reject inputs whose
`typeof` is not `"object"`, run the entry loop, and if any declared keys
were missing throw the aggregated error with the keys sorted, escaped and
comma-joined; otherwise apply the constructor to the collected values. -/
def object (entries : List (String × Decoder α)) (cons : List α → β) : Decoder β :=
  ⟨fun obj loc =>
    if typeofTag obj = "object" then
      match objectGo obj loc entries [] [] with
      | .error e => .error e
      | .ok (values, missing) =>
        if missing.isEmpty then .ok (cons values)
        else
          .error (decoderError loc
            ("object with keys: " ++ joinComma ((sortKeys missing).map escapeKey))
            .undefined)
    else .error (decoderError loc "object" obj)⟩

/-- The `decoders.map` loop of `tuple` (index.js line 299): decode position
`i` with the i-th decoder applied to `obj[i]` at location `[i]`. There is
no check that the input is an array and no length check: the raw property
read `obj[i]` is used, which yields `undefined` past the end of an array
and raises a TypeError on `null` or `undefined`. -/
def tupleGo (obj : JSValue) (loc : String) (i : Nat) :
    List (Decoder α) → Except JSError (List α)
  | [] => .ok []
  | d :: ds =>
    match jsGet obj (.num i) with
    | .error e => .error e
    | .ok v =>
      match d.fn v (pushLocation loc (.num i)) with
      | .error e => .error e
      | .ok x =>
        match tupleGo obj loc (i + 1) ds with
        | .error e => .error e
        | .ok xs => .ok (x :: xs)

/-- Source `tuple(d1..dN)` (index.js line 294). -/
def tuple (ds : List (Decoder α)) : Decoder (List α) :=
  ⟨fun obj loc => tupleGo obj loc 0 ds⟩

/-- The `keyPath.reduce` walk of `at` (index.js line 315). `origAt` is the
location the `at` decoder was invoked at and `whole` the whole input value:
all three traversal errors are rendered at `origAt` (for the numeric
non-array case with `whole` as the got value), while the running pair
carries the current value and the accumulated location. -/
def atWalk (origAt : String) (whole : JSValue) :
    List JSKey → JSValue → String → Except JSError (JSValue × String)
  | [], cur, curAt => .ok (cur, curAt)
  | key :: rest, cur, curAt =>
    match jsGet cur key with
    | .error e => .error e
    | .ok .undefined =>
      match key with
      | .num k =>
        match cur with
        | .arr xs =>
          .error (decoderError origAt
            ("array: index out of range: " ++ toString k ++ " > " ++
              toString ((xs.length : Int) - 1))
            .undefined)
        | _ => .error (decoderError origAt ("array with index " ++ toString k) whole)
      | .str k => .error (decoderError origAt ("object with key " ++ escapeKey k) cur)
    | .ok value => atWalk origAt whole rest value (pushLocation curAt key)

/-- Source `at(keyPath, decoder)` (index.js line 313): walk the key path,
then run the decoder on the reached value at the accumulated location. -/
def at_ (keyPath : List JSKey) (d : Decoder α) : Decoder α :=
  ⟨fun obj loc =>
    match atWalk loc obj keyPath obj loc with
    | .error e => .error e
    | .ok rc => d.fn rc.1 rc.2⟩

/-- The fallback loop of `oneOf` (index.js line 365): try each decoder in
order, swallowing every thrown error, and report the first success. -/
def oneOfGo (v : JSValue) (loc : String) : List (Decoder α) → Option α
  | [] => none
  | d :: ds =>
    match d.fn v loc with
    | .ok x => some x
    | .error _ => oneOfGo v loc ds

/-- Source `oneOf(first, rest..)` (index.js line 355): try `first`, then the
rest in declared order; if every branch throws, throw a plain error with
the generic `unexpected <kind>` message at the invocation location. -/
def oneOf (first : Decoder α) (rest : List (Decoder α)) : Decoder α :=
  ⟨fun v loc =>
    match first.fn v loc with
    | .ok x => .ok x
    | .error _ =>
      match oneOfGo v loc rest with
      | some x => .ok x
      | none => .error (.error ("error at " ++ loc ++ ": unexpected " ++ prettyPrint v))⟩

/-- Source `andThen(ad, cb)` (index.js line 408): decode with `ad`; on
success apply `cb` to the result to obtain a second decoder and run it on
the original input at the original location. -/
def andThen (ad : Decoder α) (cb : α → Decoder β) : Decoder β :=
  ⟨fun obj loc =>
    match ad.fn obj loc with
    | .error e => .error e
    | .ok x => (cb x).fn obj loc⟩

/-- Index-value pairing of a list starting at index `j`, used to state
positional properties of `tuple`. -/
def indexedFrom (j : Nat) : List α → List (Nat × α)
  | [] => []
  | x :: xs => (j, x) :: indexedFrom (j + 1) xs

theorem objectGo_append_error (obj : JSValue) (loc : String)
    (l2 : List (String × Decoder α)) (e : JSError) :
    ∀ (l1 : List (String × Decoder α)) (values vs : List α) (missing ms : List String),
      objectGo obj loc l1 values missing = .ok (vs, ms) →
      objectGo obj loc l2 vs ms = .error e →
      objectGo obj loc (l1 ++ l2) values missing = .error e := by
  intro l1
  induction l1 with
  | nil =>
    intro values vs missing ms h1 h2
    simp only [objectGo, Except.ok.injEq, Prod.mk.injEq] at h1
    simpa [h1.1, h1.2] using h2
  | cons hd tl ih =>
    intro values vs missing ms h1 h2
    obtain ⟨key, d⟩ := hd
    simp only [List.cons_append, objectGo] at h1 ⊢
    cases hp : jsHasProp obj key with
    | error e2 => simp [hp] at h1
    | ok b =>
      cases b with
      | false =>
        simp only [hp] at h1 ⊢
        exact ih _ _ _ _ h1 h2
      | true =>
        simp only [hp] at h1 ⊢
        cases hg : jsGet obj (.str key) with
        | error e2 => simp [hg] at h1
        | ok v =>
          simp only [hg] at h1 ⊢
          cases hf : d.fn v (pushLocation loc (.str key)) with
          | error e2 => simp [hf] at h1
          | ok x =>
            simp only [hf] at h1 ⊢
            exact ih _ _ _ _ h1 h2

theorem tupleGo_append_error (v : JSValue) (loc : String)
    (l2 : List (Decoder α)) (e : JSError) :
    ∀ (l1 : List (Decoder α)) (j : Nat) (vs : List α),
      tupleGo v loc j l1 = .ok vs →
      tupleGo v loc (j + l1.length) l2 = .error e →
      tupleGo v loc j (l1 ++ l2) = .error e := by
  intro l1
  induction l1 with
  | nil =>
    intro j vs h1 h2
    simpa using h2
  | cons d tl ih =>
    intro j vs h1 h2
    simp only [List.cons_append, tupleGo] at h1 ⊢
    cases hg : jsGet v (.num j) with
    | error e2 => simp [hg] at h1
    | ok u =>
      simp only [hg] at h1 ⊢
      cases hf : d.fn u (pushLocation loc (.num j)) with
      | error e2 => simp [hf] at h1
      | ok x =>
        simp only [hf] at h1 ⊢
        cases ht : tupleGo v loc (j + 1) tl with
        | error e2 => simp [ht] at h1
        | ok xs =>
          have h2w : tupleGo v loc (j + 1 + tl.length) l2 = .error e := by
            have harith : j + (tl.length + 1) = j + 1 + tl.length := by omega
            simpa [List.length_cons, harith] using h2
          simp [ih (j + 1) xs ht h2w]

theorem tupleGo_of_forall2 (v : JSValue) (loc : String) :
    ∀ (ds : List (Decoder α)) (j : Nat) (rs : List α),
      List.Forall₂ (fun (p : Nat × Decoder α) (r : α) =>
        ∃ u, jsGet v (.num p.1) = .ok u ∧
          p.2.fn u (pushLocation loc (.num p.1)) = .ok r)
        (indexedFrom j ds) rs →
      tupleGo v loc j ds = .ok rs := by
  intro ds
  induction ds with
  | nil =>
    intro j rs h
    simp only [indexedFrom] at h
    cases h
    simp [tupleGo]
  | cons d tl ih =>
    intro j rs h
    simp only [indexedFrom] at h
    cases h with
    | cons hd htl =>
      obtain ⟨u, hu, hr⟩ := hd
      dsimp only at hu hr
      simp [tupleGo, hu, hr, ih _ _ htl]

theorem atWalk_append_ok (origAt : String) (whole : JSValue) :
    ∀ (p1 p2 : List JSKey) (cur c2 : JSValue) (curAt a2 : String),
      atWalk origAt whole p1 cur curAt = .ok (c2, a2) →
      atWalk origAt whole (p1 ++ p2) cur curAt = atWalk origAt whole p2 c2 a2 := by
  intro p1
  induction p1 with
  | nil =>
    intro p2 cur c2 curAt a2 h
    simp only [atWalk, Except.ok.injEq, Prod.mk.injEq] at h
    simp [h.1, h.2]
  | cons key rest ih =>
    intro p2 cur c2 curAt a2 h
    simp only [List.cons_append, atWalk] at h ⊢
    cases hg : jsGet cur key with
    | error e => simp [hg] at h
    | ok value =>
      simp only [hg] at h ⊢
      cases value with
      | undefined =>
        cases key with
        | num k => cases cur <;> simp at h
        | str k => simp at h
      | null => exact ih _ _ _ _ _ h
      | bool b => exact ih _ _ _ _ _ h
      | num n => exact ih _ _ _ _ _ h
      | str s => exact ih _ _ _ _ _ h
      | arr xs => exact ih _ _ _ _ _ h
      | obj fs => exact ih _ _ _ _ _ h

theorem oneOfGo_none (v : JSValue) (loc : String) :
    ∀ (rest : List (Decoder α)),
      (∀ d2 ∈ rest, ∃ e, d2.fn v loc = .error e) →
      oneOfGo v loc rest = none := by
  intro rest
  induction rest with
  | nil => intro _; simp [oneOfGo]
  | cons d tl ih =>
    intro h
    obtain ⟨e, he⟩ := h d (List.mem_cons_self d tl)
    have htl := ih fun d2 hd2 => h d2 (List.mem_cons_of_mem d hd2)
    simp [oneOfGo, he, htl]

theorem oneOfGo_append_ok (v : JSValue) (loc : String) :
    ∀ (rest1 : List (Decoder α)) (d : Decoder α) (rest2 : List (Decoder α)) (x : α),
      (∀ d2 ∈ rest1, ∃ e, d2.fn v loc = .error e) →
      d.fn v loc = .ok x →
      oneOfGo v loc (rest1 ++ d :: rest2) = some x := by
  intro rest1
  induction rest1 with
  | nil =>
    intro d rest2 x _ hd
    simp [oneOfGo, hd]
  | cons d1 tl ih =>
    intro d rest2 x h hd
    obtain ⟨e, he⟩ := h d1 (List.mem_cons_self d1 tl)
    have htl := ih d rest2 x (fun d2 hd2 => h d2 (List.mem_cons_of_mem d1 hd2)) hd
    simp [oneOfGo, he, htl]

/-- C1 (amended): appending an integer index `i` to a location renders as
`[i]`; appending a string key of at least two characters that matches
`^[A-Za-z_$][A-Za-z0-9_$]+$` renders as `.key`; any other string key —
including single-character identifier keys — renders JSON-quoted inside
square brackets; the root location renders as an empty prefix. -/
theorem c1_pushLocation_rendering :
    (∀ (loc : String) (k : Nat),
      pushLocation loc (.num k) = locBase loc ++ "[" ++ toString k ++ "]")
    ∧ (∀ (loc k : String) (c : Char) (cs : List Char),
      k.data = c :: cs → cs ≠ [] → isIdentStart c = true → cs.all isIdentChar = true →
      pushLocation loc (.str k) = locBase loc ++ "." ++ k)
    ∧ (∀ (loc k : String),
      matchIdentPlus k = false →
      pushLocation loc (.str k) = locBase loc ++ "[" ++ jsonStringify k ++ "]")
    ∧ locBase "root" = "" := by
  refine ⟨fun loc k => rfl, ?_, ?_, rfl⟩
  · intro loc k c cs hk hne hs hall
    have hm : matchIdentPlus k = true := by
      cases cs with
      | nil => exact absurd rfl hne
      | cons c2 cs2 => simp [matchIdentPlus, hk, hs, hall]
    simp [pushLocation, hm]
  · intro loc k h
    simp [pushLocation, h]

/-- C1 counterexample: the claim says a single-character identifier key such
as `"a"` renders as `.a`, but `pushLocation` uses the plus-regex, so the key
`"a"` renders JSON-quoted inside square brackets instead. -/
theorem c1_single_char_key_counterexample :
    pushLocation "root" (.str "a") = "[\"a\"]"
    ∧ pushLocation "root" (.str "a") ≠ ".a" :=
  ⟨rfl, by decide⟩

/-- Witness for the C1 theorem at concrete keys. -/
theorem c1_witness :
    pushLocation "root" (.str "ab") = ".ab"
    ∧ pushLocation "x" (.str "a b") = "x[\"a b\"]" :=
  ⟨c1_pushLocation_rendering.2.1 "root" "ab" 'a' ['b'] rfl (by decide) (by decide) (by decide),
   c1_pushLocation_rendering.2.2.1 "x" "a b" (by decide)⟩

/-- C2 (amended): `opaqueObject().decodeAny(v)` succeeds with `v` unchanged
exactly when `typeof v` is `"object"` — which includes `null` and arrays —
and fails with expected `object` otherwise; the got clause of the failure
carries the pretty-printed kind of `v`, except that for `v = undefined` the
got clause is omitted from the error message. -/
theorem c2_opaqueObject_behavior :
    (∀ v : JSValue, typeofTag v = "object" → opaqueObject.decodeAny v = .ok v)
    ∧ (∀ v : JSValue, typeofTag v ≠ "object" → v ≠ .undefined →
        opaqueObject.decodeAny v =
          .error (.error ("error at root: expected object, got " ++ prettyPrint v)))
    ∧ opaqueObject.decodeAny .undefined = .error (.error "error at root: expected object")
    ∧ typeofTag .null = "object" ∧ (∀ xs, typeofTag (.arr xs) = "object") := by
  refine ⟨?_, ?_, rfl, rfl, fun xs => rfl⟩
  · intro v h
    simp [Decoder.decodeAny, opaqueObject, h]
  · intro v hne hnu
    cases v with
    | undefined => exact absurd rfl hnu
    | null => exact absurd rfl hne
    | arr xs => exact absurd rfl hne
    | obj fs => exact absurd rfl hne
    | bool b => rfl
    | num n => rfl
    | str s => rfl

/-- C2 counterexample: at `v = undefined` the decoder fails, but the error
message has no got clause at all, rather than got `undefined` as the claim
states for every non-object input. -/
theorem c2_undefined_counterexample :
    opaqueObject.decodeAny .undefined = .error (.error "error at root: expected object")
    ∧ ("error at root: expected object" : String) ≠
        "error at root: expected object, got undefined" :=
  ⟨rfl, by decide⟩

/-- Witness for the C2 theorem at `null` and at a number. -/
theorem c2_witness :
    opaqueObject.decodeAny .null = .ok .null
    ∧ opaqueObject.decodeAny (.num 3) =
        .error (.error "error at root: expected object, got number") :=
  ⟨c2_opaqueObject_behavior.1 .null rfl,
   c2_opaqueObject_behavior.2.1 (.num 3) (by decide) (fun h => JSValue.noConfusion h)⟩

/-- C3: evaluating the code at the failing inputs. `object` applied to
`null` passes the `typeof` kind check and then performs the key-existence
test on `null`, which raises a native TypeError rather than a
location-tagged decoder error; `at` traversing a step whose current value
is `null` likewise indexes into `null` and raises a native TypeError. -/
theorem c3_null_typeError :
    (object [("a", any)] (fun vs => JSValue.arr vs)).decodeAny .null =
      .error (.typeError "Cannot use in operator to search for a in null")
    ∧ (at_ [.str "a", .str "b"] any).decodeAny (.obj [("a", .null)]) =
      .error (.typeError "Cannot read properties of null reading b") :=
  ⟨rfl, rfl⟩

/-- C4: on an input of runtime kind object, the declared entries are walked
left to right; the first present field whose decoder fails aborts the whole
decode with that field's error even when an earlier declared key was
already found missing; the aggregated missing-keys failure, with the keys
sorted lexicographically, escaped unless identifiers and comma-joined, is
raised only when the entry walk finished without a decode failure and at
least one key was missing; and when nothing is missing the constructor is
applied to the collected values. -/
theorem c4_object_order_and_missing :
    (∀ (α β : Type) (obj : JSValue) (loc : String)
       (pre : List (String × Decoder α)) (key : String) (d : Decoder α)
       (post : List (String × Decoder α)) (cons : List α → β)
       (values : List α) (missing : List String) (v : JSValue) (e : JSError),
      typeofTag obj = "object" →
      objectGo obj loc pre [] [] = .ok (values, missing) →
      jsHasProp obj key = .ok true →
      jsGet obj (.str key) = .ok v →
      d.fn v (pushLocation loc (.str key)) = .error e →
      (object (pre ++ (key, d) :: post) cons).fn obj loc = .error e)
    ∧ (∀ (α β : Type) (obj : JSValue) (loc : String)
       (entries : List (String × Decoder α)) (cons : List α → β)
       (values : List α) (missing : List String),
      typeofTag obj = "object" →
      objectGo obj loc entries [] [] = .ok (values, missing) →
      missing ≠ [] →
      (object entries cons).fn obj loc =
        .error (.error ("error at " ++ loc ++ ": expected " ++
          ("object with keys: " ++ joinComma ((sortKeys missing).map escapeKey)))))
    ∧ (∀ (α β : Type) (obj : JSValue) (loc : String)
       (entries : List (String × Decoder α)) (cons : List α → β) (values : List α),
      typeofTag obj = "object" →
      objectGo obj loc entries [] [] = .ok (values, []) →
      (object entries cons).fn obj loc = .ok (cons values)) := by
  refine ⟨?_, ?_, ?_⟩
  · intro α β obj loc pre key d post cons values missing v e hTag hPre hHas hGet hFail
    have hstep : objectGo obj loc ((key, d) :: post) values missing = .error e := by
      simp [objectGo, hHas, hGet, hFail]
    have hall := objectGo_append_error obj loc ((key, d) :: post) e pre [] values [] missing hPre hstep
    simp [object, hTag, hall]
  · intro α β obj loc entries cons values missing hTag hGo hne
    have hmiss : missing.isEmpty = false := by
      cases missing with
      | nil => exact absurd rfl hne
      | cons m ms => rfl
    simp [object, hTag, hGo, hmiss, decoderError, hne]
  · intro α β obj loc entries cons values hTag hGo
    simp [object, hTag, hGo]

/-- Witness for the C4 theorem: a failing present field aborts with that
field's error although an earlier key was missing, and an all-missing
object reports the sorted, escaped, comma-joined keys. -/
theorem c4_witness :
    (object [("aa", string), ("bb", string)] (fun vs => JSValue.arr vs)).fn
        (.obj [("bb", .num 5)]) "root" =
      .error (.error "error at .bb: expected string, got number")
    ∧ (object [("bb", any), ("a-b", any), ("aa", any)] (fun vs => JSValue.arr vs)).fn
        (.obj []) "root" =
      .error (.error "error at root: expected object with keys: \"a-b\", aa, bb") :=
  ⟨c4_object_order_and_missing.1 JSValue JSValue (.obj [("bb", .num 5)]) "root"
      [("aa", string)] "bb" string [] (fun vs => JSValue.arr vs) [] ["aa"] (.num 5)
      (.error "error at .bb: expected string, got number") rfl rfl rfl rfl rfl,
   c4_object_order_and_missing.2.1 JSValue JSValue (.obj []) "root"
      [("bb", any), ("a-b", any), ("aa", any)] (fun vs => JSValue.arr vs) []
      ["bb", "a-b", "aa"] rfl rfl (by simp)⟩

/-- C5 (amended): `tuple` performs no length check: when the array input is
shorter than the declared decoders, the first out-of-range position is
decoded by applying its decoder to `undefined` at location `[i]`, and the
reported failure is whatever error that decoder produces for `undefined`
(for a string element this is expected `string` with no got clause, since
`decoderError` omits got when it is `undefined`), never a dedicated
tuple-length error. -/
theorem c5_tuple_out_of_range :
    ∀ (α : Type) (pre : List (Decoder α)) (d : Decoder α) (post : List (Decoder α))
      (xs : List JSValue) (loc : String) (vs : List α) (e : JSError),
      tupleGo (.arr xs) loc 0 pre = .ok vs →
      xs.length ≤ pre.length →
      d.fn .undefined (pushLocation loc (.num pre.length)) = .error e →
      (tuple (pre ++ d :: post)).fn (.arr xs) loc = .error e := by
  intro α pre d post xs loc vs e hPre hLen hFail
  have hget : jsGet (.arr xs) (.num pre.length) = .ok .undefined := by
    show Except.ok (xs.getD pre.length .undefined) = .ok .undefined
    rw [xs.getD_eq_default _ hLen]
  have hstep : tupleGo (.arr xs) loc (0 + pre.length) (d :: post) = .error e := by
    simp only [Nat.zero_add]
    simp [tupleGo, hget, hFail]
  have hall := tupleGo_append_error (.arr xs) loc (d :: post) e pre 0 vs hPre hstep
  simpa [tuple] using hall

/-- C5 counterexample: the claim illustrates the failure for a string
element as expected string, got undefined, but the error produced for the
out-of-range position has no got clause at all. -/
theorem c5_got_undefined_counterexample :
    (tuple [string]).decodeAny (.arr []) = .error (.error "error at [0]: expected string")
    ∧ ("error at [0]: expected string" : String) ≠
        "error at [0]: expected string, got undefined" :=
  ⟨rfl, by decide⟩

/-- Witness for the C5 theorem: a two-decoder tuple on a one-element array
fails with the second element decoder's own error for `undefined`. -/
theorem c5_witness :
    (tuple [string, string]).fn (.arr [.str "x"]) "root" =
      .error (.error "error at [1]: expected string") :=
  c5_tuple_out_of_range JSValue [string] string [] [.str "x"] "root" [.str "x"]
    (.error "error at [1]: expected string") rfl (by decide) rfl

/-- C6: `oneOf` returns the result of `first` when it succeeds; otherwise
it tries the rest in declared order and returns the first success,
regardless of the branches that come after it; and when every branch fails
it reports the generic unexpected-kind error at the invocation location,
with the per-branch errors discarded. -/
theorem c6_oneOf_alternation :
    (∀ (α : Type) (first : Decoder α) (rest : List (Decoder α))
       (v : JSValue) (loc : String) (x : α),
      first.fn v loc = .ok x → (oneOf first rest).fn v loc = .ok x)
    ∧ (∀ (α : Type) (first : Decoder α) (rest1 : List (Decoder α)) (d : Decoder α)
        (rest2 : List (Decoder α)) (v : JSValue) (loc : String) (x : α) (e0 : JSError),
      first.fn v loc = .error e0 →
      (∀ d2 ∈ rest1, ∃ e, d2.fn v loc = .error e) →
      d.fn v loc = .ok x →
      (oneOf first (rest1 ++ d :: rest2)).fn v loc = .ok x)
    ∧ (∀ (α : Type) (first : Decoder α) (rest : List (Decoder α))
        (v : JSValue) (loc : String) (e0 : JSError),
      first.fn v loc = .error e0 →
      (∀ d2 ∈ rest, ∃ e, d2.fn v loc = .error e) →
      (oneOf first rest).fn v loc =
        .error (.error ("error at " ++ loc ++ ": unexpected " ++ prettyPrint v))) := by
  refine ⟨?_, ?_, ?_⟩
  · intro α first rest v loc x h
    simp [oneOf, h]
  · intro α first rest1 d rest2 v loc x e0 h1 hall hd
    simp [oneOf, h1, oneOfGo_append_ok v loc rest1 d rest2 x hall hd]
  · intro α first rest v loc e0 h1 hall
    simp [oneOf, h1, oneOfGo_none v loc rest hall]

/-- Witness for the C6 theorem: the second branch rescues an input the
first rejects, and an input rejected by all branches gets the generic
error. -/
theorem c6_witness :
    (oneOf string [number]).decodeAny (.num 5) = .ok (.num 5)
    ∧ (oneOf string [number]).decodeAny (.bool true) =
        .error (.error "error at root: unexpected boolean") :=
  ⟨c6_oneOf_alternation.2.1 JSValue string [] number [] (.num 5) "root" (.num 5)
      (.error "error at root: expected string, got number") rfl
      (fun d2 hd2 => absurd hd2 (List.not_mem_nil d2)) rfl,
   c6_oneOf_alternation.2.2 JSValue string [number] (.bool true) "root"
      (.error "error at root: expected string, got boolean") rfl
      (by
        intro d2 hd2
        rw [List.mem_singleton.1 hd2]
        exact ⟨.error "error at root: expected number, got boolean", rfl⟩)⟩

/-- Helper: every `decoderError` message starts with the location followed
by the expected clause, whatever the got value is. -/
theorem decoderError_shape (loc E : String) (g : JSValue) :
    ∃ m, decoderError loc E g = .error ("error at " ++ loc ++ ": expected " ++ m) := by
  cases g with
  | undefined => exact ⟨E, rfl⟩
  | null =>
    refine ⟨E ++ ", got " ++ prettyPrint .null, ?_⟩
    simp [decoderError, String.append_assoc]
  | bool b =>
    refine ⟨E ++ ", got " ++ prettyPrint (.bool b), ?_⟩
    simp [decoderError, String.append_assoc]
  | num n =>
    refine ⟨E ++ ", got " ++ prettyPrint (.num n), ?_⟩
    simp [decoderError, String.append_assoc]
  | str s =>
    refine ⟨E ++ ", got " ++ prettyPrint (.str s), ?_⟩
    simp [decoderError, String.append_assoc]
  | arr xs =>
    refine ⟨E ++ ", got " ++ prettyPrint (.arr xs), ?_⟩
    simp [decoderError, String.append_assoc]
  | obj fs =>
    refine ⟨E ++ ", got " ++ prettyPrint (.obj fs), ?_⟩
    simp [decoderError, String.append_assoc]

/-- C7 (amended): `at` walks the key path accumulating the location; a step
whose looked-up value is strictly `undefined` fails — with expected
`array: index out of range: N > L-1` (beginning with the claimed
`array: index out of range`) when the step is numeric and the current
container is array-kind of length `L`, expected `array with index N` with
the whole input as got when the step is numeric and the container is not
array-kind, and expected `object with key <escaped key>` with the current
container as got when the step is a string — and after the last step the
decoder is applied to the reached value at the accumulated location. -/
theorem c7_at_path_walk :
    (∀ (α : Type) (pfx : List JSKey) (k : Nat) (rest : List JSKey) (d : Decoder α)
       (v : JSValue) (loc : String) (xs : List JSValue) (curAt : String),
      atWalk loc v pfx v loc = .ok (.arr xs, curAt) →
      xs.getD k .undefined = .undefined →
      (at_ (pfx ++ .num k :: rest) d).fn v loc =
        .error (decoderError loc
          ("array: index out of range: " ++ toString k ++ " > " ++
            toString ((xs.length : Int) - 1)) .undefined))
    ∧ (∀ (α : Type) (pfx : List JSKey) (k : Nat) (rest : List JSKey) (d : Decoder α)
       (v cur : JSValue) (loc curAt : String),
      atWalk loc v pfx v loc = .ok (cur, curAt) →
      (∀ xs, cur ≠ .arr xs) →
      jsGet cur (.num k) = .ok .undefined →
      (at_ (pfx ++ .num k :: rest) d).fn v loc =
        .error (decoderError loc ("array with index " ++ toString k) v))
    ∧ (∀ (α : Type) (pfx : List JSKey) (k : String) (rest : List JSKey) (d : Decoder α)
       (v cur : JSValue) (loc curAt : String),
      atWalk loc v pfx v loc = .ok (cur, curAt) →
      jsGet cur (.str k) = .ok .undefined →
      (at_ (pfx ++ .str k :: rest) d).fn v loc =
        .error (decoderError loc ("object with key " ++ escapeKey k) cur))
    ∧ (∀ (α : Type) (path : List JSKey) (d : Decoder α) (v r : JSValue) (loc rAt : String),
      atWalk loc v path v loc = .ok (r, rAt) →
      (at_ path d).fn v loc = d.fn r rAt) := by
  refine ⟨?_, ?_, ?_, ?_⟩
  · intro α pfx k rest d v loc xs curAt hPre hU
    have hw := atWalk_append_ok loc v pfx (.num k :: rest) v (.arr xs) loc curAt hPre
    have hg : jsGet (.arr xs) (.num k) = .ok .undefined := by
      show Except.ok (xs.getD k .undefined) = .ok .undefined
      rw [hU]
    have hstep : atWalk loc v (.num k :: rest) (.arr xs) curAt =
        .error (decoderError loc
          ("array: index out of range: " ++ toString k ++ " > " ++
            toString ((xs.length : Int) - 1)) .undefined) := by
      simp [atWalk, hg]
    simp [at_, hw, hstep]
  · intro α pfx k rest d v cur loc curAt hPre hne hg
    have hw := atWalk_append_ok loc v pfx (.num k :: rest) v cur loc curAt hPre
    have hstep : atWalk loc v (.num k :: rest) cur curAt =
        .error (decoderError loc ("array with index " ++ toString k) v) := by
      cases cur with
      | arr xs => exact absurd rfl (hne xs)
      | undefined => simp [jsGet] at hg
      | null => simp [jsGet] at hg
      | bool b => simp [atWalk, hg]
      | num n => simp [atWalk, hg]
      | str s => simp [atWalk, hg]
      | obj fs => simp [atWalk, hg]
    simp [at_, hw, hstep]
  · intro α pfx k rest d v cur loc curAt hPre hg
    have hw := atWalk_append_ok loc v pfx (.str k :: rest) v cur loc curAt hPre
    have hstep : atWalk loc v (.str k :: rest) cur curAt =
        .error (decoderError loc ("object with key " ++ escapeKey k) cur) := by
      simp [atWalk, hg]
    simp [at_, hw, hstep]
  · intro α path d v r loc rAt h
    simp [at_, h]

/-- C7 counterexample: the out-of-range failure's expected clause is not
the bare string the claim gives; the actual message carries the index and
the last valid index after it. -/
theorem c7_out_of_range_counterexample :
    (at_ [.str "a", .num 5] string).decodeAny (.obj [("a", .arr [.str "x"])]) =
      .error (.error "error at root: expected array: index out of range: 5 > 0")
    ∧ ("error at root: expected array: index out of range: 5 > 0" : String) ≠
        "error at root: expected array: index out of range" :=
  ⟨rfl, by decide⟩

/-- Witness for the C7 theorem: the successful walk of the claimed example,
and an out-of-range failure on an empty array. -/
theorem c7_witness :
    (at_ [.str "a", .num 1] string).decodeAny
        (.obj [("a", .arr [.str "x", .str "y"])]) = .ok (.str "y")
    ∧ (at_ [.num 2] any).decodeAny (.arr []) =
        .error (.error "error at root: expected array: index out of range: 2 > -1") :=
  ⟨(c7_at_path_walk.2.2.2 JSValue [.str "a", .num 1] string
      (.obj [("a", .arr [.str "x", .str "y"])]) (.str "y") "root" "[\"a\"][1]" rfl).trans rfl,
   c7_at_path_walk.1 JSValue [] 2 [] any (.arr []) "root" [] "root" rfl rfl⟩

/-- C8: `andThen` propagates the first decoder's failure unchanged; on
success it applies the continuation to the decoded value and runs the
resulting decoder on the original input at the original location. -/
theorem c8_andThen_behavior :
    (∀ (α β : Type) (ad : Decoder α) (cb : α → Decoder β)
       (v : JSValue) (loc : String) (e : JSError),
      ad.fn v loc = .error e → (andThen ad cb).fn v loc = .error e)
    ∧ (∀ (α β : Type) (ad : Decoder α) (cb : α → Decoder β)
        (v : JSValue) (loc : String) (x : α),
      ad.fn v loc = .ok x → (andThen ad cb).fn v loc = (cb x).fn v loc) := by
  constructor
  · intro α β ad cb v loc e h
    simp [andThen, h]
  · intro α β ad cb v loc x h
    simp [andThen, h]

/-- Witness for the C8 theorem: the first decoder's failure propagates, and
on success the second decoder is re-applied to the original input (so it
can itself reject that input). -/
theorem c8_witness :
    (andThen string (fun _ => number)).decodeAny (.num 7) =
      .error (.error "error at root: expected string, got number")
    ∧ (andThen string (fun _ => number)).decodeAny (.str "hi") =
      .error (.error "error at root: expected number, got string") :=
  ⟨c8_andThen_behavior.1 JSValue JSValue string (fun _ => number) (.num 7) "root"
      (.error "error at root: expected string, got number") rfl,
   (c8_andThen_behavior.2 JSValue JSValue string (fun _ => number) (.str "hi") "root"
      (.str "hi") rfl).trans rfl⟩

/-- C9: `tuple` performs no array-kind check at all: any input whose
positional property reads at 0..N-1 succeed with values the element
decoders accept decodes successfully to the list of element results. -/
theorem c9_tuple_positional_only :
    ∀ (α : Type) (ds : List (Decoder α)) (v : JSValue) (loc : String) (rs : List α),
      List.Forall₂ (fun (p : Nat × Decoder α) (r : α) =>
        ∃ u, jsGet v (.num p.1) = .ok u ∧
          p.2.fn u (pushLocation loc (.num p.1)) = .ok r)
        (indexedFrom 0 ds) rs →
      (tuple ds).fn v loc = .ok rs := by
  intro α ds v loc rs h
  simpa [tuple] using tupleGo_of_forall2 v loc ds 0 rs h

/-- Witness for the C9 theorem: a plain non-array object with keys `"0"`
and `"1"` decodes as a tuple, and a string decodes positionally under
`any`. -/
theorem c9_witness :
    (tuple [number, number]).decodeAny (.obj [("0", .num 1), ("1", .num 2)]) =
      .ok [.num 1, .num 2]
    ∧ (tuple [any, any]).decodeAny (.str "ab") = .ok [.str "a", .str "b"] :=
  ⟨c9_tuple_positional_only JSValue [number, number]
      (.obj [("0", .num 1), ("1", .num 2)]) "root" [.num 1, .num 2]
      (List.Forall₂.cons ⟨.num 1, rfl, rfl⟩
        (List.Forall₂.cons ⟨.num 2, rfl, rfl⟩ List.Forall₂.nil)),
   c9_tuple_positional_only JSValue [any, any] (.str "ab") "root" [.str "a", .str "b"]
      (List.Forall₂.cons ⟨.str "a", rfl, rfl⟩
        (List.Forall₂.cons ⟨.str "b", rfl, rfl⟩ List.Forall₂.nil))⟩

/-- C10: every failure raised by the path walk of `at` is rendered at the
location the `at` decoder started from, and only the final application of
the inner decoder uses the accumulated location. -/
theorem c10_at_error_location :
    (∀ (α : Type) (pfx : List JSKey) (key : JSKey) (rest : List JSKey) (d : Decoder α)
       (v cur : JSValue) (loc curAt : String),
      atWalk loc v pfx v loc = .ok (cur, curAt) →
      jsGet cur key = .ok .undefined →
      ∃ m, (at_ (pfx ++ key :: rest) d).fn v loc =
        .error (.error ("error at " ++ loc ++ ": expected " ++ m)))
    ∧ (∀ (α : Type) (path : List JSKey) (d : Decoder α) (v r : JSValue) (loc rAt : String),
      atWalk loc v path v loc = .ok (r, rAt) →
      (at_ path d).fn v loc = d.fn r rAt) := by
  constructor
  · intro α pfx key rest d v cur loc curAt hPre hg
    have hw := atWalk_append_ok loc v pfx (key :: rest) v cur loc curAt hPre
    cases key with
    | num k =>
      cases cur with
      | undefined => simp [jsGet] at hg
      | null => simp [jsGet] at hg
      | arr xs =>
        obtain ⟨m, hm⟩ := decoderError_shape loc
          ("array: index out of range: " ++ toString k ++ " > " ++
            toString ((xs.length : Int) - 1)) JSValue.undefined
        refine ⟨m, ?_⟩
        have hstep : atWalk loc v (JSKey.num k :: rest) (.arr xs) curAt =
            .error (decoderError loc
              ("array: index out of range: " ++ toString k ++ " > " ++
                toString ((xs.length : Int) - 1)) .undefined) := by
          simp [atWalk, hg]
        simp [at_, hw, hstep, hm]
      | bool b =>
        obtain ⟨m, hm⟩ := decoderError_shape loc ("array with index " ++ toString k) v
        refine ⟨m, ?_⟩
        have hstep : atWalk loc v (JSKey.num k :: rest) (.bool b) curAt =
            .error (decoderError loc ("array with index " ++ toString k) v) := by
          simp [atWalk, hg]
        simp [at_, hw, hstep, hm]
      | num n =>
        obtain ⟨m, hm⟩ := decoderError_shape loc ("array with index " ++ toString k) v
        refine ⟨m, ?_⟩
        have hstep : atWalk loc v (JSKey.num k :: rest) (.num n) curAt =
            .error (decoderError loc ("array with index " ++ toString k) v) := by
          simp [atWalk, hg]
        simp [at_, hw, hstep, hm]
      | str s =>
        obtain ⟨m, hm⟩ := decoderError_shape loc ("array with index " ++ toString k) v
        refine ⟨m, ?_⟩
        have hstep : atWalk loc v (JSKey.num k :: rest) (.str s) curAt =
            .error (decoderError loc ("array with index " ++ toString k) v) := by
          simp [atWalk, hg]
        simp [at_, hw, hstep, hm]
      | obj fs =>
        obtain ⟨m, hm⟩ := decoderError_shape loc ("array with index " ++ toString k) v
        refine ⟨m, ?_⟩
        have hstep : atWalk loc v (JSKey.num k :: rest) (.obj fs) curAt =
            .error (decoderError loc ("array with index " ++ toString k) v) := by
          simp [atWalk, hg]
        simp [at_, hw, hstep, hm]
    | str k =>
      obtain ⟨m, hm⟩ := decoderError_shape loc ("object with key " ++ escapeKey k) cur
      refine ⟨m, ?_⟩
      have hstep : atWalk loc v (JSKey.str k :: rest) cur curAt =
          .error (decoderError loc ("object with key " ++ escapeKey k) cur) := by
        simp [atWalk, hg]
      simp [at_, hw, hstep, hm]
  · intro α path d v r loc rAt h
    simp [at_, h]

/-- Witness for the C10 theorem: a string-step failure two levels deep is
reported at the root location, not at the accumulated path. -/
theorem c10_witness :
    ∃ m, (at_ [.str "a", .str "b"] any).decodeAny (.obj [("a", .obj [])]) =
      .error (.error ("error at root: expected " ++ m)) :=
  c10_at_error_location.1 JSValue [.str "a"] (.str "b") [] any
    (.obj [("a", .obj [])]) (.obj []) "root" "[\"a\"]" rfl rfl

end TSJD
